import Mathlib

/-!
Verification of bartpy (src: bartpy/data/target.py, bartpy/samplers/leafnode.py,
bartpy/sklearnmodel.py) against its natural-language specification.

Shallow embedding conventions:
* numpy float arrays are `List ℚ`; matrices are `List (List ℚ)` (rows).
* A Python attribute that is only conditionally set is an `Option` field; reading
  a missing attribute (AttributeError) surfaces as `none` / `Except.error`.
* Mutating methods are state-passing: they return the new object together with
  the method's return value.
* Real-valued draws that enter a square root live in `ℝ` (`Real.sqrt`).
-/

namespace Bartpy

/-- Python exceptions raised by the translated code paths;
`configurationError` is the spec's eager hyperparameter failure. -/
inductive PyErr where
  | attributeError
  | valueError
  | configurationError
  deriving DecidableEq

/-- np.min over a (nonempty) vector; on the empty list it falls back to the
default head, matching that numpy would raise there (never reached in claims). -/
def npMin (y : List ℚ) : ℚ := y.foldr min y.headI

/-- np.max over a (nonempty) vector. -/
def npMax (y : List ℚ) : ℚ := y.foldr max y.headI

/-- np.mean over a vector: sum divided by length. -/
def npMean (y : List ℚ) : ℚ := y.sum / (y.length : ℚ)

/-- Columnwise sum of a rectangular matrix (np.sum(..., axis=0)). -/
def npSumAxis0 : List (List ℚ) → List ℚ
  | [] => []
  | [r] => r
  | r :: rs => List.zipWith (· + ·) r (npSumAxis0 rs)

/-- Columnwise mean of a rectangular matrix (np.mean(..., axis=0)). -/
def npMeanAxis0 (rows : List (List ℚ)) : List ℚ :=
  (npSumAxis0 rows).map fun v => v / (rows.length : ℚ)

/-! ## bartpy/data/target.py -/

/-- The `Target` object.  `original_y_min` / `original_y_max` are `Option`
because `__init__` sets them only on the `normalize` branch; `_summed_y` is the
cached masked sum, meaningful only while `y_sum_cache_up_to_date` is true. -/
structure Target where
  original_y_min : Option ℚ
  original_y_max : Option ℚ
  _y : List ℚ
  _mask : List Bool
  _inverse_mask_int : List ℚ
  _n_obsv : ℕ
  y_sum_cache_up_to_date : Bool
  _summed_y : Option ℚ

/-- `Target.normalize_y` (staticmethod):
`-0.5 + (y - y_min) / (y_max - y_min)` elementwise, with ℚ total division
(the zero-denominator case is tracked separately by `normalize_y_fin`). -/
def Target.normalize_y (y : List ℚ) : List ℚ :=
  y.map fun v => -(1/2) + (v - npMin y) / (npMax y - npMin y)

/-- numpy float division: a zero denominator yields a non-finite result
(`inf` or `NaN`), modelled as `none`. -/
def fdiv (a b : ℚ) : Option ℚ := if b = 0 then none else some (a / b)

/-- `Target.normalize_y` again, with numpy float semantics of the division made
explicit: an entry is `none` exactly when the elementwise division
`(v - y_min) / (y_max - y_min)` produces a non-finite value. -/
def normalize_y_fin (y : List ℚ) : List (Option ℚ) :=
  y.map fun v => (fdiv (v - npMin y) (npMax y - npMin y)).map fun q => -(1/2) + q

/-- `Target.__init__`.  On `normalize` it stores `y.min()` / `y.max()` and
normalizes `_y`; `_inverse_mask_int = (~mask).astype(int)`; the sum cache is
valid iff a `y_sum` was supplied. -/
def Target.init (y : List ℚ) (mask : List Bool) (n_obsv : ℕ) (normalize : Bool)
    (y_sum : Option ℚ) : Target :=
  { original_y_min := if normalize then some (npMin y) else none
    original_y_max := if normalize then some (npMax y) else none
    _y := if normalize then Target.normalize_y y else y
    _mask := mask
    _inverse_mask_int := mask.map fun b => if b then 0 else 1
    _n_obsv := n_obsv
    y_sum_cache_up_to_date := y_sum.isSome
    _summed_y := y_sum }

/-- `Target.unnormalize_y`: `original_y_min + ((y - (-0.5)) * (original_y_max -
original_y_min))`; reading a never-set attribute is an AttributeError (`none`). -/
def Target.unnormalize_y (t : Target) (y : List ℚ) : Option (List ℚ) :=
  match t.original_y_max, t.original_y_min with
  | some mx, some mn => some (y.map fun v => mn + (v - -(1/2)) * (mx - mn))
  | _, _ => none

/-- `Target.unnormalized_y` property. -/
def Target.unnormalized_y (t : Target) : Option (List ℚ) :=
  t.unnormalize_y t._y

/-- `Target.normalizing_scale` property. -/
def Target.normalizing_scale (t : Target) : Option ℚ :=
  match t.original_y_max, t.original_y_min with
  | some mx, some mn => some (mx - mn)
  | _, _ => none

/-- `Target.summed_y`: serve the cache when valid, else recompute
`sum(self._y * self._inverse_mask_int)`, store it and mark the cache valid.
Returns the value together with the post-call object. -/
def Target.summed_y (t : Target) : Option ℚ × Target :=
  if t.y_sum_cache_up_to_date then (t._summed_y, t)
  else
    let s := (List.zipWith (· * ·) t._y t._inverse_mask_int).sum
    (some s, { t with _summed_y := some s, y_sum_cache_up_to_date := true })

/-- `Target.update_y`: replace the vector, unconditionally invalidate the cache. -/
def Target.update_y (t : Target) (y : List ℚ) : Target :=
  { t with _y := y, y_sum_cache_up_to_date := false }

/-- `Target.values` property. -/
def Target.values (t : Target) : List ℚ := t._y

/-- Multiplying values with the 0/1 inverse mask selects the mask-false entries. -/
theorem zipWith_inverse_mask (ys : List ℚ) (mask : List Bool) :
    List.zipWith (· * ·) ys (mask.map fun b => if b then (0:ℚ) else 1) =
      List.zipWith (fun v m => if m then 0 else v) ys mask := by
  induction ys generalizing mask with
  | nil => simp
  | cons v vs ih =>
    cases mask with
    | nil => simp
    | cons b bs =>
      cases b <;> simp [ih]

/-- Claim C2: for a non-constant vector `y`, a normalizing `Target` stores the
training min/max, `unnormalize_y` maps `v` to `min + (v + 0.5) * (max - min)`,
and un-normalizing the normalized values gives back `y` exactly. -/
theorem unnormalize_normalize_roundtrip (y : List ℚ) (mask : List Bool)
    (n : ℕ) (ysum : Option ℚ) (z : List ℚ)
    (h : npMax y ≠ npMin y) :
    (Target.init y mask n true ysum).unnormalize_y z =
        some (z.map fun v => npMin y + (v + 1/2) * (npMax y - npMin y)) ∧
    (Target.init y mask n true ysum).unnormalize_y
        ((Target.init y mask n true ysum).values) = some y := by
  have hform : (Target.init y mask n true ysum).unnormalize_y z =
      some (z.map fun v => npMin y + (v + 1/2) * (npMax y - npMin y)) := by
    simp only [Target.init, Target.unnormalize_y, if_pos, sub_neg_eq_add]
  refine ⟨hform, ?_⟩
  have hscale : npMax y - npMin y ≠ 0 := sub_ne_zero.mpr h
  simp only [Target.init, Target.unnormalize_y, Target.values, if_pos,
    Target.normalize_y, List.map_map, sub_neg_eq_add, Option.some.injEq]
  have hpt : ∀ v : ℚ,
      npMin y + (-(1/2) + (v - npMin y) / (npMax y - npMin y) + 1/2) *
        (npMax y - npMin y) = v := by
    intro v
    have hmid : -(1/2) + (v - npMin y) / (npMax y - npMin y) + 1/2 =
        (v - npMin y) / (npMax y - npMin y) := by ring
    rw [hmid, div_mul_cancel₀ _ hscale]
    ring
  calc y.map ((fun v => npMin y + (v + 1/2) * (npMax y - npMin y)) ∘
        fun v => -(1/2) + (v - npMin y) / (npMax y - npMin y))
      = y.map id := List.map_congr_left fun v _ => hpt v
    _ = y := List.map_id y

/-- Claim C2 witness at `y = [1, 2, 3]`. -/
theorem unnormalize_normalize_roundtrip_witness :
    npMax [1, 2, 3] ≠ npMin [1, 2, 3] ∧
    (Target.init [1, 2, 3] [] 3 true none).unnormalize_y
        ((Target.init [1, 2, 3] [] 3 true none).values) = some [1, 2, 3] :=
  ⟨by norm_num [npMax, npMin],
   (unnormalize_normalize_roundtrip [1, 2, 3] [] 3 none []
      (by norm_num [npMax, npMin])).2⟩

/-- Claim C3: after `update_y` the cache is unconditionally stale and the values
are replaced; the next `summed_y` recomputes `sum(values * inverse_mask)`, which
is the sum of the new values over mask-false observations, and marks the cache
valid; a second call without mutation returns the same value and state. -/
theorem summed_y_cache_correct (y ys : List ℚ) (mask : List Bool) (n : ℕ)
    (norm : Bool) (ysum : Option ℚ) :
    ((Target.init y mask n norm ysum).update_y ys).y_sum_cache_up_to_date = false ∧
    ((Target.init y mask n norm ysum).update_y ys)._y = ys ∧
    (((Target.init y mask n norm ysum).update_y ys).summed_y).1 =
        some ((List.zipWith (fun v m => if m then 0 else v) ys mask).sum) ∧
    ((((Target.init y mask n norm ysum).update_y ys).summed_y).2).y_sum_cache_up_to_date
        = true ∧
    (((((Target.init y mask n norm ysum).update_y ys).summed_y).2).summed_y).1 =
        (((Target.init y mask n norm ysum).update_y ys).summed_y).1 ∧
    (((((Target.init y mask n norm ysum).update_y ys).summed_y).2).summed_y).2 =
        (((Target.init y mask n norm ysum).update_y ys).summed_y).2 := by
  refine ⟨rfl, rfl, ?_, ?_, ?_, ?_⟩ <;>
    simp [Target.init, Target.update_y, Target.summed_y, zipWith_inverse_mask]

/-- Claim C10: a `Target` built with `normalize=False` never sets
`original_y_min` / `original_y_max`, so `unnormalize_y`, `unnormalized_y` and
`normalizing_scale` all fail with an AttributeError (`none`) instead of acting
as the identity. -/
theorem non_normalizing_target_has_no_unnormalize (y : List ℚ) (mask : List Bool)
    (n : ℕ) (ysum : Option ℚ) (z : List ℚ) :
    (Target.init y mask n false ysum).original_y_min = none ∧
    (Target.init y mask n false ysum).original_y_max = none ∧
    (Target.init y mask n false ysum).unnormalize_y z = none ∧
    (Target.init y mask n false ysum).unnormalized_y = none ∧
    (Target.init y mask n false ysum).normalizing_scale = none := by
  refine ⟨rfl, rfl, rfl, rfl, rfl⟩

/-- Claim C7 counterexample: on the constant vector `[1, 1]` the scale division
is not skipped; `normalize_y` divides by `max - min = 0` and every entry of the
result is non-finite (`none`), so constructing a normalizing Target from a
constant vector does produce non-finite values. -/
theorem normalize_constant_produces_non_finite :
    normalize_y_fin [1, 1] = [none, none] := by
  norm_num [normalize_y_fin, fdiv, npMin, npMax]

/-- Claim C7 as amended: for every constant vector `y` (`max(y) = min(y)`),
`normalize_y` performs the zero-denominator division and every entry of the
result is non-finite, with no defensive guard anywhere on the path. -/
theorem normalize_constant_all_non_finite (y : List ℚ)
    (h : npMax y = npMin y) :
    normalize_y_fin y = y.map fun _ => none := by
  simp [normalize_y_fin, fdiv, h]

/-- Claim C7 amended witness at `y = [2, 2]`. -/
theorem normalize_constant_all_non_finite_witness :
    npMax [2, 2] = npMin [2, 2] ∧
    normalize_y_fin [2, 2] = ([2, 2] : List ℚ).map fun _ => none :=
  ⟨by norm_num [npMax, npMin],
   normalize_constant_all_non_finite [2, 2] (by norm_num [npMax, npMin])⟩

/-! ## bartpy/samplers/leafnode.py -/

/-- Modelled from the spec: `NormalScalarSampler` (bartpy/samplers/scalar.py is
not under src/): a pool of pre-drawn standard-normal values with an index
cursor; `sample()` returns the next pooled value, refilling transparently when
exhausted.  The refill is modelled by an infinite pool stream. -/
structure NormalScalarSampler where
  pool : ℕ → ℝ
  cursor : ℕ
  cache_size : ℕ

/-- `NormalScalarSampler.sample`: return the next pooled draw and advance the
cursor. -/
def NormalScalarSampler.sample (s : NormalScalarSampler) : ℝ × NormalScalarSampler :=
  (s.pool s.cursor, { s with cursor := s.cursor + 1 })

/-- `model.sigma` object: `current_value()` is the current residual standard
deviation. -/
structure SigmaState where
  current_value : ℝ

/-- `node.data`: the node's data partition, exposing `n_obsv` and the target
values `y`. -/
structure NodeData where
  n_obsv : ℕ
  y : List ℝ

/-- A leaf node: its data partition and its current predicted value. -/
structure LeafNode where
  data : NodeData
  value : ℝ

/-- `node.set_value`. -/
def LeafNode.set_value (node : LeafNode) (v : ℝ) : LeafNode :=
  { node with value := v }

/-- The model attributes read by `LeafNodeSampler`. -/
structure Model where
  sigma_m : ℝ
  sigma : SigmaState
  n_trees : ℕ

/-- np.mean over a real vector. -/
noncomputable def npMeanR (y : List ℝ) : ℝ := y.sum / (y.length : ℝ)

/-- `LeafNodeSampler.sample`: conjugate-normal posterior draw for the leaf
value, consuming one draw from the instance's scalar sampler. -/
noncomputable def LeafNodeSampler.sample (model : Model) (node : LeafNode)
    (s : NormalScalarSampler) : ℝ × NormalScalarSampler :=
  let prior_var := model.sigma_m ^ 2
  let n : ℝ := (node.data.n_obsv : ℝ)
  let likihood_var := model.sigma.current_value ^ 2 / n
  let likihood_mean := npMeanR node.data.y
  let posterior_variance := 1 / (1 / prior_var + 1 / likihood_var)
  let posterior_mean := likihood_mean * (prior_var / (likihood_var + prior_var))
  let es := NormalScalarSampler.sample s
  (posterior_mean + es.1 * Real.sqrt (posterior_variance / (model.n_trees : ℝ)), es.2)

/-- `LeafNodeSampler.step`: draw, assign the draw to the node, return it. -/
noncomputable def LeafNodeSampler.step (model : Model) (node : LeafNode)
    (s : NormalScalarSampler) : ℝ × LeafNode × NormalScalarSampler :=
  let es := LeafNodeSampler.sample model node s
  (es.1, node.set_value es.1, es.2)

/-- The spec's posterior variance: `1 / (1/prior_var + n/sigma^2)`. -/
noncomputable def posteriorVarianceSpec (model : Model) (node : LeafNode) : ℝ :=
  1 / (1 / model.sigma_m ^ 2 +
    (node.data.n_obsv : ℝ) / model.sigma.current_value ^ 2)

/-- The spec's likelihood variance: `sigma^2 / n`. -/
noncomputable def likelihoodVarSpec (model : Model) (node : LeafNode) : ℝ :=
  model.sigma.current_value ^ 2 / (node.data.n_obsv : ℝ)

/-- The spec's posterior mean:
`likelihood_mean * prior_var / (likelihood_var + prior_var)`. -/
noncomputable def posteriorMeanSpec (model : Model) (node : LeafNode) : ℝ :=
  npMeanR node.data.y * model.sigma_m ^ 2 /
    (likelihoodVarSpec model node + model.sigma_m ^ 2)

/-- The spec's leaf draw:
`posterior_mean + eps * sqrt(posterior_variance / n_trees)` with `eps` the next
standard-normal draw of the scalar sampler. -/
noncomputable def sampleSpec (model : Model) (node : LeafNode)
    (s : NormalScalarSampler) : ℝ :=
  posteriorMeanSpec model node +
    s.pool s.cursor * Real.sqrt (posteriorVarianceSpec model node / (model.n_trees : ℝ))

/-- Claim C1: with at least one observation in the leaf, `sample` returns
exactly the spec's posterior draw (posterior variance
`1/(1/prior_var + n/sigma^2)`, posterior mean
`likelihood_mean * prior_var / (likelihood_var + prior_var)`, `eps` the next
pooled draw), and `step` assigns that draw to the node and returns it. -/
theorem leaf_sampler_posterior_draw (model : Model) (node : LeafNode)
    (s : NormalScalarSampler) (h : 1 ≤ node.data.n_obsv) :
    (LeafNodeSampler.sample model node s).1 = sampleSpec model node s ∧
    (LeafNodeSampler.step model node s).2.1.value =
        (LeafNodeSampler.sample model node s).1 ∧
    (LeafNodeSampler.step model node s).1 =
        (LeafNodeSampler.sample model node s).1 ∧
    (LeafNodeSampler.sample model node s).2 =
        { s with cursor := s.cursor + 1 } := by
  refine ⟨?_, rfl, rfl, rfl⟩
  simp only [LeafNodeSampler.sample, sampleSpec, posteriorMeanSpec,
    posteriorVarianceSpec, likelihoodVarSpec, NormalScalarSampler.sample,
    one_div_div, mul_div_assoc]

/-- Claim C1 witness at a concrete one-observation leaf. -/
theorem leaf_sampler_posterior_draw_witness :
    1 ≤ (1 : ℕ) ∧
    (LeafNodeSampler.sample ⟨1, ⟨1⟩, 1⟩ ⟨⟨1, [1]⟩, 0⟩ ⟨fun _ => 0, 0, 50000⟩).1 =
      sampleSpec ⟨1, ⟨1⟩, 1⟩ ⟨⟨1, [1]⟩, 0⟩ ⟨fun _ => 0, 0, 50000⟩ :=
  ⟨by decide,
   (leaf_sampler_posterior_draw ⟨1, ⟨1⟩, 1⟩ ⟨⟨1, [1]⟩, 0⟩ ⟨fun _ => 0, 0, 50000⟩
      (by decide)).1⟩

/-! ### Sharing of the default scalar sampler (claim C4)

`LeafNodeSampler.__init__` declares `scalar_sampler=NormalScalarSampler(50000)`
as a default argument.  Python evaluates a default argument once, at function
definition time, so every `LeafNodeSampler()` constructed without an explicit
argument holds a reference to the same module-level sampler object.  The heap
below makes that reference semantics explicit. -/

/-- A reference to a scalar sampler object: the module-level default-argument
object, or a caller-supplied one. -/
inductive SamplerRef where
  | defaultRef
  | ownRef (i : ℕ)

/-- The sampler objects reachable from `LeafNodeSampler` instances: the single
default-argument object plus any explicitly constructed ones. -/
structure SamplerHeap where
  defaultSampler : NormalScalarSampler
  owned : ℕ → NormalScalarSampler

def SamplerHeap.get (h : SamplerHeap) : SamplerRef → NormalScalarSampler
  | SamplerRef.defaultRef => h.defaultSampler
  | SamplerRef.ownRef i => h.owned i

def SamplerHeap.set (h : SamplerHeap) :
    SamplerRef → NormalScalarSampler → SamplerHeap
  | SamplerRef.defaultRef, s => { h with defaultSampler := s }
  | SamplerRef.ownRef i, s =>
      { h with owned := fun j => if j = i then s else h.owned j }

/-- A `LeafNodeSampler` object: it stores only the reference to its scalar
sampler. -/
structure LeafNodeSamplerObj where
  scalar_sampler : SamplerRef

/-- `LeafNodeSampler()` with no argument: the stored reference is the shared
default-argument object (evaluated once at class-definition time). -/
def LeafNodeSamplerObj.initDefault : LeafNodeSamplerObj :=
  ⟨SamplerRef.defaultRef⟩

/-- One `self._scalar_sampler.sample()` through a given instance: read the
referenced sampler from the heap, draw, write the advanced sampler back. -/
def sampleThrough (h : SamplerHeap) (o : LeafNodeSamplerObj) :
    ℝ × SamplerHeap :=
  let s := h.get o.scalar_sampler
  let es := NormalScalarSampler.sample s
  (es.1, h.set o.scalar_sampler es.2)

/-- A concrete heap whose default pool is the identity stream `i ↦ i`. -/
def heap0 : SamplerHeap :=
  { defaultSampler := { pool := fun i => (i : ℝ), cursor := 0, cache_size := 50000 }
    owned := fun _ => { pool := fun i => (i : ℝ), cursor := 0, cache_size := 50000 } }

/-- Claim C4 is violated by the code: two `LeafNodeSampler()` instances built
without an explicit `scalar_sampler` share the one default-argument pool, so a
single draw through the first changes the value the second subsequently
returns (pool position 1 instead of pool position 0). -/
theorem default_scalar_sampler_is_shared :
    (sampleThrough (sampleThrough heap0 LeafNodeSamplerObj.initDefault).2
        LeafNodeSamplerObj.initDefault).1 ≠
      (sampleThrough heap0 LeafNodeSamplerObj.initDefault).1 := by
  simp only [sampleThrough, SamplerHeap.get, SamplerHeap.set,
    NormalScalarSampler.sample, LeafNodeSamplerObj.initDefault, heap0]
  norm_num

/-! ## bartpy/sklearnmodel.py -/

/-- A retained model snapshot, as used by prediction: only its `predict`
method is consumed (`Model` itself lives outside src/). -/
structure PredModel where
  predict : List (List ℚ) → List ℚ

/-- One acceptance-trace entry (a mapping of sampler name to acceptance rate),
modelled opaquely: only list structure matters to the claims. -/
def AccRecord : Type := List ℚ

/-- One chain's extract: the dict with keys `model`,
`in_sample_predictions` and `acceptance`. -/
structure ChainExtractR where
  model : List PredModel
  in_sample_predictions : List (List ℚ)
  acceptance : List AccRecord

/-- `SklearnModel._combine_chains`: reads the key set from `extract[0]`
(IndexError, i.e. `none`, on an empty list) and concatenates every chain's
entry for each key along axis 0. -/
def combine_chains (extract : List ChainExtractR) : Option ChainExtractR :=
  match extract with
  | [] => none
  | _ :: _ =>
      some { model := (extract.map ChainExtractR.model).flatten
             in_sample_predictions :=
               (extract.map ChainExtractR.in_sample_predictions).flatten
             acceptance := (extract.map ChainExtractR.acceptance).flatten }

/-- The chain-runner function produced by `delayed_run_chain()`. -/
inductive ChainFn where
  | runChain

/-- `delayed_run_chain()` returns the `run_chain` function. -/
def delayed_run_chain : ChainFn := ChainFn.runChain

/-- Modelled from the spec: `UniformMutationProposer`
(bartpy/samplers/treemutation/uniform/proposer.py is not under src/) holds the
grow/prune probability list. -/
structure UniformMutationProposer where
  prob_method : List ℚ

/-- Modelled from the spec: the `UniformMutationProposer` constructor called at
`SklearnModel.__init__` receives `[p_grow, p_prune]`, which per the spec "must
sum to 1; fail fast otherwise" — a `ConfigurationError` detected eagerly,
before any sampling. -/
def UniformMutationProposer.init (prob_method : List ℚ) :
    Except PyErr UniformMutationProposer :=
  if prob_method.sum = 1 then Except.ok ⟨prob_method⟩
  else Except.error PyErr.configurationError

/-- The `SklearnModel` hyperparameter state set by `__init__`.  Fields that no
claim reads (tree samplers, schedule, the six run-state slots initialised to
`None`) are omitted; the proposer and the probability list handed to the
likelihood ratio are kept. -/
structure SklearnModel where
  n_trees : ℕ
  n_chains : ℕ
  sigma_a : ℚ
  sigma_b : ℚ
  n_samples : ℕ
  n_burn : ℤ
  thin : ℚ
  p_grow : ℚ
  p_prune : ℚ
  alpha : ℚ
  beta : ℚ
  store_in_sample_predictions : Bool
  store_acceptance_trace : Bool
  n_jobs : ℤ
  proposer : UniformMutationProposer
  likihood_ratio_probs : List ℚ

/-- `SklearnModel.__init__`: field assignment plus the call
`UniformMutationProposer([p_grow, p_prune])`, whose spec-modelled validation is
the only failure point — the source itself contains no check of `n_burn`,
`thin` or anything else. -/
def SklearnModel.init (n_trees n_chains : ℕ) (sigma_a sigma_b : ℚ)
    (n_samples : ℕ) (n_burn : ℤ) (thin : ℚ) (p_grow p_prune : ℚ)
    (alpha beta : ℚ) (store_in_sample_predictions store_acceptance_trace : Bool)
    (n_jobs : ℤ) : Except PyErr SklearnModel :=
  match UniformMutationProposer.init [p_grow, p_prune] with
  | Except.error e => Except.error e
  | Except.ok proposer =>
      Except.ok
        { n_trees := n_trees
          n_chains := n_chains
          sigma_a := sigma_a
          sigma_b := sigma_b
          n_samples := n_samples
          n_burn := n_burn
          thin := thin
          p_grow := p_grow
          p_prune := p_prune
          alpha := alpha
          beta := beta
          store_in_sample_predictions := store_in_sample_predictions
          store_acceptance_trace := store_acceptance_trace
          n_jobs := n_jobs
          proposer := proposer
          likihood_ratio_probs := [p_grow, p_prune] }

/-- `SklearnModel.f_chains`: `[delayed_run_chain() for _ in range(n_chains)]`. -/
def SklearnModel.f_chains (m : SklearnModel) : List ChainFn :=
  (List.range m.n_chains).map fun _ => delayed_run_chain

/-- Modelled from the spec: the chain driver (bartpy/samplers/modelsampler.py
is not under src/) retains, out of `n_samples` recorded iterations, those whose
1-based index is divisible by `round(1 / thin)`; `thin = 1.0` keeps every
iteration. -/
def retainedCount (n_samples : ℕ) (thin : ℚ) : ℕ :=
  ((List.range n_samples).filter fun i => ((i : ℤ) + 1) % round (1 / thin) == 0).length

/-- With `n_samples = 4, thin = 1.0` every iteration is retained. -/
theorem retainedCount_four_one : retainedCount 4 1 = 4 := by
  simp only [retainedCount, show round ((1 : ℚ) / 1) = 1 by norm_num]
  rfl

/-- Claim C5: for EVERY (nonempty — `_combine_chains` reads `extract[0]`, and
extract lists come from `n_chains ≥ 1` chain runs) list of per-chain extracts,
the combined extract concatenates the retained-model sequences, prediction
matrices (row-wise) and acceptance traces in chain order; `f_chains` returns
exactly `n_chains` runners; and in particular, when there are 3 chains each
retaining `retainedCount 4 1` samples (`n_samples = 4, thin = 1.0`), the
combined extract has exactly 12 models and 12 prediction rows. -/
theorem combine_chains_concatenates (exts : List ChainExtractR)
    (m : SklearnModel) (hne : exts ≠ []) :
    combine_chains exts =
        some { model := (exts.map ChainExtractR.model).flatten
               in_sample_predictions :=
                 (exts.map ChainExtractR.in_sample_predictions).flatten
               acceptance := (exts.map ChainExtractR.acceptance).flatten } ∧
    (m.f_chains).length = m.n_chains ∧
    (exts.length = 3 →
      (∀ e ∈ exts, e.model.length = retainedCount 4 1) →
      (∀ e ∈ exts, e.in_sample_predictions.length = retainedCount 4 1) →
      ((exts.map ChainExtractR.model).flatten).length = 12 ∧
      ((exts.map ChainExtractR.in_sample_predictions).flatten).length = 12) := by
  refine ⟨?_, by simp [SklearnModel.f_chains], ?_⟩
  · obtain ⟨a, rest, rfl⟩ := List.exists_cons_of_ne_nil hne
    rfl
  · intro h3 hm hp
    obtain ⟨a, b, c, rfl⟩ := List.length_eq_three.mp h3
    have ha := hm a (by simp)
    have hb := hm b (by simp)
    have hc := hm c (by simp)
    have hpa := hp a (by simp)
    have hpb := hp b (by simp)
    have hpc := hp c (by simp)
    rw [retainedCount_four_one] at ha hb hc hpa hpb hpc
    constructor
    · simp [ha, hb, hc]
    · simp [hpa, hpb, hpc]

/-- Claim C5 witness: three concrete chains of four retained samples each. -/
theorem combine_chains_concatenates_witness :
    (([ChainExtractR.mk (List.replicate 4 ⟨fun _ => []⟩) (List.replicate 4 []) [],
       ChainExtractR.mk (List.replicate 4 ⟨fun _ => []⟩) (List.replicate 4 []) [],
       ChainExtractR.mk (List.replicate 4 ⟨fun _ => []⟩) (List.replicate 4 []) []]).map
      ChainExtractR.model).flatten.length = 12 :=
  ((combine_chains_concatenates
    [ChainExtractR.mk (List.replicate 4 ⟨fun _ => []⟩) (List.replicate 4 []) [],
     ChainExtractR.mk (List.replicate 4 ⟨fun _ => []⟩) (List.replicate 4 []) [],
     ChainExtractR.mk (List.replicate 4 ⟨fun _ => []⟩) (List.replicate 4 []) []]
    ⟨50, 4, 1/1000, 1/1000, 200, 200, 1/10, 1/2, 1/2, 19/20, 2, true, true, -1,
      ⟨[1/2, 1/2]⟩, [1/2, 1/2]⟩
    (List.cons_ne_nil _ _)).2.2 rfl
    (by simp [retainedCount_four_one])
    (by simp [retainedCount_four_one])).1

/-- The fitted-model state read by the prediction facade: the flag and the
fields `fit` fills in (`data`, `_prediction_samples`, `_model_samples`). -/
structure SklearnModelFitted where
  store_in_sample_predictions : Bool
  data : Target
  _prediction_samples : List (List ℚ)
  _model_samples : List PredModel

/-- `SklearnModel._out_of_sample_predict`: un-normalize the columnwise mean of
each retained model's prediction on `X`. -/
def SklearnModelFitted.out_of_sample_predict (m : SklearnModelFitted)
    (X : List (List ℚ)) : Except PyErr (List ℚ) :=
  match m.data.unnormalize_y (npMeanAxis0 (m._model_samples.map fun s => s.predict X)) with
  | some r => Except.ok r
  | none => Except.error PyErr.attributeError

/-- `SklearnModel.predict`: with `X = None` and storage enabled, un-normalize
the columnwise mean of the stored prediction samples; with `X = None` and
storage disabled, raise a ValueError; otherwise predict out of sample. -/
def SklearnModelFitted.predict (m : SklearnModelFitted)
    (X : Option (List (List ℚ))) : Except PyErr (List ℚ) :=
  match X with
  | none =>
      if m.store_in_sample_predictions then
        match m.data.unnormalize_y (npMeanAxis0 m._prediction_samples) with
        | some r => Except.ok r
        | none => Except.error PyErr.attributeError
      else Except.error PyErr.valueError
  | some x => m.out_of_sample_predict x

/-- Claim C6: with in-sample storage enabled, `predict()` with no covariates is
the un-normalized elementwise mean of the retained prediction samples, and
`predict(X)` is the un-normalized mean of the per-retained-model predictions
on `X`, both mapped through `v ↦ min + (v + 0.5) * (max - min)`. -/
theorem predict_is_unnormalized_mean (m : SklearnModelFitted)
    (X : List (List ℚ)) (mn mx : ℚ)
    (hs : m.store_in_sample_predictions = true)
    (hmn : m.data.original_y_min = some mn)
    (hmx : m.data.original_y_max = some mx) :
    m.predict none = Except.ok ((npMeanAxis0 m._prediction_samples).map
        fun v => mn + (v + 1/2) * (mx - mn)) ∧
    m.predict (some X) = Except.ok
        ((npMeanAxis0 (m._model_samples.map fun s => s.predict X)).map
          fun v => mn + (v + 1/2) * (mx - mn)) := by
  constructor <;>
    simp [SklearnModelFitted.predict, SklearnModelFitted.out_of_sample_predict,
      Target.unnormalize_y, hs, hmn, hmx, sub_neg_eq_add]

/-- Claim C6 witness on a concrete one-sample fitted state. -/
theorem predict_is_unnormalized_mean_witness :
    (SklearnModelFitted.mk true ⟨some 0, some 1, [], [], [], 0, false, none⟩
        [[0]] []).predict none =
      Except.ok ((npMeanAxis0 [[0]]).map fun v => 0 + (v + 1/2) * (1 - 0)) :=
  (predict_is_unnormalized_mean
    (SklearnModelFitted.mk true ⟨some 0, some 1, [], [], [], 0, false, none⟩
      [[0]] [])
    [] 0 1 rfl rfl rfl).1

/-- `SklearnModel.residuals`: `y - predict(X)` when `y` is given, else the
training target's un-normalized values minus `predict(X)`. -/
def SklearnModelFitted.residuals (m : SklearnModelFitted)
    (X : Option (List (List ℚ))) (y : Option (List ℚ)) : Except PyErr (List ℚ) :=
  match y with
  | none =>
      match m.data.unnormalized_y with
      | some uy => (m.predict X).map fun p => List.zipWith (· - ·) uy p
      | none => Except.error PyErr.attributeError
  | some yv => (m.predict X).map fun p => List.zipWith (· - ·) yv p

/-- `SklearnModel.l2_error`: elementwise square of the residuals. -/
def SklearnModelFitted.l2_error (m : SklearnModelFitted)
    (X : Option (List (List ℚ))) (y : Option (List ℚ)) : Except PyErr (List ℚ) :=
  (m.residuals X y).map fun r => r.map fun v => v ^ 2

/-- `SklearnModel.rmse`: `np.sqrt(np.sum(l2_error(X, y)))` — the root of the
SUM of squared errors. -/
noncomputable def SklearnModelFitted.rmse (m : SklearnModelFitted)
    (X : Option (List (List ℚ))) (y : Option (List ℚ)) : Except PyErr ℝ :=
  (m.l2_error X y).map fun l => Real.sqrt ((l.sum : ℚ) : ℝ)

/-- Squares of entries of constant absolute value sum to `length * e^2`. -/
theorem sum_sq_of_const_abs (r : List ℚ) (e : ℚ)
    (h : ∀ v ∈ r, v ^ 2 = e ^ 2) :
    (r.map fun v => v ^ 2).sum = (r.length : ℚ) * e ^ 2 := by
  induction r with
  | nil => simp
  | cons a t ih =>
    have ha := h a (by simp)
    have ht := ih fun v hv => h v (by simp [hv])
    simp only [List.map_cons, List.sum_cons, ha, ht, List.length_cons]
    push_cast
    ring

/-- Claim C9: `rmse` is the square root of the SUM of squared residuals (not
of their mean); when every residual has magnitude `e`, it equals
`sqrt(n) * e`, not `e`. -/
theorem rmse_is_root_of_sum (m : SklearnModelFitted) (X : List (List ℚ))
    (y : List ℚ) (r : List ℚ) (e : ℚ)
    (hr : m.residuals (some X) (some y) = Except.ok r)
    (hn : 1 ≤ r.length)
    (he : ∀ v ∈ r, |v| = e) :
    m.rmse (some X) (some y) =
        Except.ok (Real.sqrt (((r.map fun v => v ^ 2).sum : ℚ) : ℝ)) ∧
    Real.sqrt (((r.map fun v => v ^ 2).sum : ℚ) : ℝ) =
        Real.sqrt ((r.length : ℝ)) * (e : ℝ) := by
  have hsq : ∀ v ∈ r, v ^ 2 = e ^ 2 := by
    intro v hv
    rw [← sq_abs, he v hv]
  have he0 : (0 : ℚ) ≤ e := by
    rcases r with _ | ⟨a, t⟩
    · simp at hn
    · rw [← he a (by simp)]
      exact abs_nonneg a
  constructor
  · simp [SklearnModelFitted.rmse, SklearnModelFitted.l2_error, hr,
      Except.map, List.map_map]
  · rw [sum_sq_of_const_abs r e hsq]
    push_cast
    rw [Real.sqrt_mul (by positivity) _, Real.sqrt_sq (by exact_mod_cast he0)]

/-- Claim C9 witness: two observations with residual magnitude 1 give
`rmse = sqrt 2`, not 1. -/
theorem rmse_is_root_of_sum_witness :
    Real.sqrt (((([1, 1] : List ℚ).map fun v => v ^ 2).sum : ℚ) : ℝ) =
      Real.sqrt ((([1, 1] : List ℚ).length : ℝ)) * ((1 : ℚ) : ℝ) :=
  (rmse_is_root_of_sum
    (SklearnModelFitted.mk true ⟨some 0, some 1, [], [], [], 0, false, none⟩
      [] [⟨fun rows => rows.map fun _ => -(1/2)⟩])
    [[0], [0]] [1, 1] [1, 1] 1
    (by norm_num [SklearnModelFitted.residuals, SklearnModelFitted.predict,
      SklearnModelFitted.out_of_sample_predict, Target.unnormalize_y,
      npMeanAxis0, npSumAxis0, Except.map, List.zipWith])
    (by norm_num)
    (by norm_num)).2

/-- Claim C8 counterexample: the claim quantifies over every malformed
configuration, but with `n_burn = -1` and `thin = 5` (probabilities summing to
1) construction succeeds without any configuration error — the malformed
values are stored verbatim, so nothing fails before sampling. -/
theorem init_accepts_malformed_config :
    SklearnModel.init 50 4 (1/1000) (1/1000) 200 (-1) 5 (1/2) (1/2)
        (19/20) 2 true true (-1) =
      Except.ok
        ⟨50, 4, 1/1000, 1/1000, 200, -1, 5, 1/2, 1/2, 19/20, 2, true, true, -1,
          ⟨[1/2, 1/2]⟩, [1/2, 1/2]⟩ := by
  norm_num [SklearnModel.init, UniformMutationProposer.init]

/-- Claim C8 as amended: of the three malformed-hyperparameter families the
claim names, only `p_grow + p_prune ≠ 1` fails before sampling (fail-fast in
the spec-modelled `UniformMutationProposer` constructor); `n_burn < 0` and
`thin` outside `(0, 1]` are never validated — with probabilities summing to 1,
construction succeeds, stores the malformed values verbatim, and `f_chains`
produces the chain runners, so any failure from them could only occur
mid-chain. -/
theorem init_validates_only_probabilities (n_trees n_chains : ℕ)
    (sigma_a sigma_b : ℚ) (n_samples : ℕ) (n_burn : ℤ) (thin : ℚ)
    (p_grow p_prune : ℚ) (alpha beta : ℚ) (sp sa : Bool) (n_jobs : ℤ)
    (hbad : n_burn < 0 ∨ thin ≤ 0 ∨ 1 < thin) :
    (p_grow + p_prune = 1 →
      SklearnModel.init n_trees n_chains sigma_a sigma_b n_samples n_burn thin
          p_grow p_prune alpha beta sp sa n_jobs =
        Except.ok
          ⟨n_trees, n_chains, sigma_a, sigma_b, n_samples, n_burn, thin,
            p_grow, p_prune, alpha, beta, sp, sa, n_jobs,
            ⟨[p_grow, p_prune]⟩, [p_grow, p_prune]⟩) ∧
    (p_grow + p_prune ≠ 1 →
      SklearnModel.init n_trees n_chains sigma_a sigma_b n_samples n_burn thin
          p_grow p_prune alpha beta sp sa n_jobs =
        Except.error PyErr.configurationError) ∧
    ((SklearnModel.mk n_trees n_chains sigma_a sigma_b n_samples n_burn thin
        p_grow p_prune alpha beta sp sa n_jobs
        ⟨[p_grow, p_prune]⟩ [p_grow, p_prune]).f_chains).length = n_chains := by
  refine ⟨?_, ?_, by simp [SklearnModel.f_chains]⟩
  · intro h1
    simp [SklearnModel.init, UniformMutationProposer.init, h1]
  · intro h1
    simp [SklearnModel.init, UniformMutationProposer.init, h1]

/-- Claim C8 amended witness: `n_burn = -1` with probabilities `3/10 + 3/10`
fails fast with the configuration error. -/
theorem init_validates_only_probabilities_witness :
    SklearnModel.init 50 4 (1/1000) (1/1000) 200 (-1) (1/10) (3/10) (3/10)
        (19/20) 2 true true (-1) = Except.error PyErr.configurationError :=
  ((init_validates_only_probabilities 50 4 (1/1000) (1/1000) 200 (-1) (1/10)
    (3/10) (3/10) (19/20) 2 true true (-1)
    (Or.inl (by norm_num))).2.1) (by norm_num)

end Bartpy
